import Mathlib

/-!
Verification of the kubit controller (`src/controller.rs`).

This file gives a shallow embedding of the reconciliation logic of the
kubit Kubernetes controller and proves properties of it.  Pure pieces of
the Rust code (condition merging, job-state classification, volume
construction, log summarisation, error absorption) are translated
directly into Lean functions; the Kubernetes API interactions of the
stateful reconcile functions are modelled by explicit state passing plus
oracle parameters for the outcomes of the individual API calls, and a
trace of emitted effects records the order of the calls.
Timestamps (`chrono::Utc::now()`) are modelled by natural numbers.
-/

namespace Kubit

/-- One entry of `status.conditions` (`AppInstanceCondition` in
`resources.rs`); `lastTransitionTime` is modelled as a natural-number
timestamp. -/
structure AppInstanceCondition where
  message : String
  reason : String
  status : String
  type_ : String
  lastTransitionTime : Nat
  observedGeneration : Option Int
deriving Repr, DecidableEq

/-- The candidate condition built at the top of `update_condition_vec`
(controller.rs:1302-1309): message defaults to the empty string,
`observed_generation` is `None`, and the transition time is stamped with
the current clock `now`. -/
def new_condition (type_ status reason : String) (message : Option String) (now : Nat) :
    AppInstanceCondition :=
  { message := message.getD "", reason := reason, status := status, type_ := type_,
    lastTransitionTime := now, observedGeneration := none }

/-- Loop body of `update_condition_vec` (controller.rs:1310-1321): walk the
list looking for the first condition with the given `type_`; replace it in
place, keeping the old `lastTransitionTime` when the status is unchanged;
append the new condition when no condition of this type exists. -/
def update_condition_go (type_ : String) (nc : AppInstanceCondition) :
    List AppInstanceCondition → List AppInstanceCondition
  | [] => [nc]
  | i :: rest =>
    if i.type_ = type_ then
      (if i.status = nc.status then { nc with lastTransitionTime := i.lastTransitionTime }
       else nc) :: rest
    else
      i :: update_condition_go type_ nc rest

/-- `update_condition_vec` (controller.rs:1295-1322).  The Rust function
returns `Result` but never fails, so we return the updated list directly. -/
def update_condition_vec (vec : List AppInstanceCondition)
    (type_ status reason : String) (message : Option String) (now : Nat) :
    List AppInstanceCondition :=
  update_condition_go type_ (new_condition type_ status reason message now) vec

/-- `find_condition` (controller.rs:1325-1330), looking a condition up by its
`type_` in a condition list. -/
def find_condition (conds : List AppInstanceCondition) (type_ : String) :
    Option AppInstanceCondition :=
  conds.find? (fun c => c.type_ == type_)

/-- Folding a batch of `update_condition_vec` calls over a condition list,
used to speak about every list reachable by the controller's status
updates (the controller starts from the empty/default status). -/
def apply_condition_updates :
    List (String × String × String × Option String × Nat) →
      List AppInstanceCondition → List AppInstanceCondition
  | [], vec => vec
  | (t, s, r, m, now) :: rest, vec =>
    apply_condition_updates rest (update_condition_vec vec t s r m now)

theorem update_condition_vec_find_self (vec : List AppInstanceCondition)
    (T S R : String) (M : Option String) (now : Nat) :
    ∃ t, find_condition (update_condition_vec vec T S R M now) T =
      some { new_condition T S R M now with lastTransitionTime := t } := by
  unfold find_condition update_condition_vec
  induction vec with
  | nil =>
    exact ⟨now, by simp [update_condition_go, List.find?, new_condition]⟩
  | cons i rest ih =>
    by_cases hi : i.type_ = T
    · by_cases hs : i.status = S
      · refine ⟨i.lastTransitionTime, ?_⟩
        simp [update_condition_go, hi, hs, List.find?, new_condition]
      · refine ⟨now, ?_⟩
        simp [update_condition_go, hi, hs, List.find?, new_condition]
    · obtain ⟨t, ht⟩ := ih
      refine ⟨t, ?_⟩
      have hbeq : (i.type_ == T) = false := by simp [hi]
      simp only [update_condition_go, if_neg hi, List.find?, hbeq]
      exact ht

theorem update_condition_vec_find_other (vec : List AppInstanceCondition)
    (T S R : String) (M : Option String) (now : Nat) (T' : String) (hne : T' ≠ T) :
    find_condition (update_condition_vec vec T S R M now) T' = find_condition vec T' := by
  have hTT : (T == T') = false := by
    simp only [beq_eq_false_iff_ne, ne_eq]
    exact fun h => hne h.symm
  unfold find_condition update_condition_vec
  induction vec with
  | nil => simp [update_condition_go, List.find?, new_condition, hTT]
  | cons i rest ih =>
    by_cases hi : i.type_ = T
    · have hip : (i.type_ == T') = false := by rw [hi]; exact hTT
      by_cases hs : i.status = S <;>
        simp [update_condition_go, hi, hs, List.find?, hip, hTT, new_condition]
    · by_cases hip : i.type_ = T'
      · have hb : (i.type_ == T') = true := by simp [hip]
        simp [update_condition_go, hi, List.find?, hb]
      · have hb : (i.type_ == T') = false := by simp [hip]
        simp only [update_condition_go, if_neg hi, List.find?, hb]
        exact ih

theorem update_condition_vec_find_none (vec : List AppInstanceCondition)
    (T S R : String) (M : Option String) (now : Nat)
    (hnone : find_condition vec T = none) :
    update_condition_vec vec T S R M now = vec ++ [new_condition T S R M now] := by
  unfold find_condition at hnone
  unfold update_condition_vec
  induction vec with
  | nil => simp [update_condition_go]
  | cons i rest ih =>
    simp only [List.find?] at hnone
    by_cases hi : i.type_ = T
    · have hb : (i.type_ == T) = true := by simp [hi]
      simp [hb] at hnone
    · have hb : (i.type_ == T) = false := by simp [hi]
      simp only [hb] at hnone
      simp only [update_condition_go, if_neg hi, List.cons_append]
      rw [ih hnone]

theorem update_condition_vec_find_same_status (vec : List AppInstanceCondition)
    (T S R : String) (M : Option String) (now : Nat) (c : AppInstanceCondition)
    (hfind : find_condition vec T = some c) (hs : c.status = S) :
    find_condition (update_condition_vec vec T S R M now) T =
      some { new_condition T S R M now with lastTransitionTime := c.lastTransitionTime } := by
  unfold find_condition at hfind
  unfold find_condition update_condition_vec
  induction vec with
  | nil => simp [List.find?] at hfind
  | cons i rest ih =>
    simp only [List.find?] at hfind
    by_cases hi : i.type_ = T
    · have hb : (i.type_ == T) = true := by simp [hi]
      simp only [hb, Option.some.injEq] at hfind
      subst hfind
      simp [update_condition_go, hi, hs, List.find?, new_condition]
    · have hb : (i.type_ == T) = false := by simp [hi]
      simp only [hb] at hfind
      simp only [update_condition_go, if_neg hi, List.find?, hb]
      exact ih hfind

theorem update_condition_vec_find_diff_status (vec : List AppInstanceCondition)
    (T S R : String) (M : Option String) (now : Nat) (c : AppInstanceCondition)
    (hfind : find_condition vec T = some c) (hs : c.status ≠ S) :
    find_condition (update_condition_vec vec T S R M now) T =
      some (new_condition T S R M now) := by
  unfold find_condition at hfind
  unfold find_condition update_condition_vec
  induction vec with
  | nil => simp [List.find?] at hfind
  | cons i rest ih =>
    simp only [List.find?] at hfind
    by_cases hi : i.type_ = T
    · have hb : (i.type_ == T) = true := by simp [hi]
      simp only [hb, Option.some.injEq] at hfind
      subst hfind
      simp [update_condition_go, hi, hs, List.find?, new_condition]
    · have hb : (i.type_ == T) = false := by simp [hi]
      simp only [hb] at hfind
      simp only [update_condition_go, if_neg hi, List.find?, hb]
      exact ih hfind

theorem update_condition_vec_map_types (vec : List AppInstanceCondition)
    (T S R : String) (M : Option String) (now : Nat) :
    (update_condition_vec vec T S R M now).map (fun c => c.type_) =
      if T ∈ vec.map (fun c => c.type_) then vec.map (fun c => c.type_)
      else vec.map (fun c => c.type_) ++ [T] := by
  unfold update_condition_vec
  induction vec with
  | nil => simp [update_condition_go, new_condition]
  | cons i rest ih =>
    by_cases hi : i.type_ = T
    · by_cases hs : i.status = S <;>
        simp [update_condition_go, hi, hs, new_condition]
    · by_cases hmem : T ∈ rest.map (fun c => c.type_) <;>
        simp [update_condition_go, hi, hmem, ih, Ne.symm hi]

/-- C4: `update_condition_vec(T, S, R, M)` keeps `lastTransitionTime`
unchanged (while overwriting reason and message) when a condition of type
`T` already has status `S`; when the status differs, or no condition of
type `T` exists, the written condition is stamped with the fresh time
`now`, which is strictly later than every timestamp already stored
(hypothesis `hclock`: the wall clock moves forward). -/
theorem c4_update_condition_transition_time
    (vec : List AppInstanceCondition) (T S R : String) (M : Option String) (now : Nat)
    (hclock : ∀ c ∈ vec, c.lastTransitionTime < now) :
    (∀ c, find_condition vec T = some c → c.status = S →
      find_condition (update_condition_vec vec T S R M now) T =
        some { message := M.getD "", reason := R, status := S, type_ := T,
               lastTransitionTime := c.lastTransitionTime, observedGeneration := none }) ∧
    (∀ c, find_condition vec T = some c → c.status ≠ S →
      find_condition (update_condition_vec vec T S R M now) T =
        some { message := M.getD "", reason := R, status := S, type_ := T,
               lastTransitionTime := now, observedGeneration := none } ∧
      c.lastTransitionTime < now) ∧
    (find_condition vec T = none →
      update_condition_vec vec T S R M now =
        vec ++ [{ message := M.getD "", reason := R, status := S, type_ := T,
                  lastTransitionTime := now, observedGeneration := none }]) := by
  refine ⟨?_, ?_, ?_⟩
  · intro c hfind hs
    exact update_condition_vec_find_same_status vec T S R M now c hfind hs
  · intro c hfind hs
    refine ⟨update_condition_vec_find_diff_status vec T S R M now c hfind hs, ?_⟩
    have hmem : c ∈ vec := by
      unfold find_condition at hfind
      exact List.mem_of_find?_eq_some hfind
    exact hclock c hmem
  · intro hnone
    exact update_condition_vec_find_none vec T S R M now hnone

/-- A sample `Ready` condition used to instantiate the condition-merge
theorems on concrete data. -/
def sample_ready_condition : AppInstanceCondition :=
  { message := "", reason := "A", status := "True", type_ := "Ready",
    lastTransitionTime := 1, observedGeneration := none }

/-- Concrete instance of `c4_update_condition_transition_time`: updating a
`Ready=True` condition with the same status keeps `lastTransitionTime = 1`
while reason and message are overwritten. -/
theorem c4_update_condition_transition_time_witness :
    find_condition
      (update_condition_vec [sample_ready_condition] "Ready" "True" "B" (some "m") 5)
      "Ready" =
      some { message := "m", reason := "B", status := "True", type_ := "Ready",
             lastTransitionTime := 1, observedGeneration := none } := by
  have h := (c4_update_condition_transition_time [sample_ready_condition]
      "Ready" "True" "B" (some "m") 5 (by decide)).1 sample_ready_condition (by decide) rfl
  simpa [sample_ready_condition] using h

/-- C5: the condition list keeps at most one condition per `type`, distinct
types stay in first-seen order, and updating an existing type replaces it
in place: the list of types after an update equals the old list of types
when the type was already present, and otherwise gains the type at the
end; type-uniqueness is preserved, and every list built from the empty
status by a batch of updates has pairwise-distinct types. -/
theorem c5_update_condition_order
    (vec : List AppInstanceCondition) (T S R : String) (M : Option String) (now : Nat) :
    ((update_condition_vec vec T S R M now).map (fun c => c.type_) =
      if T ∈ vec.map (fun c => c.type_) then vec.map (fun c => c.type_)
      else vec.map (fun c => c.type_) ++ [T]) ∧
    ((vec.map (fun c => c.type_)).Nodup →
      ((update_condition_vec vec T S R M now).map (fun c => c.type_)).Nodup) ∧
    (∀ updates, ((apply_condition_updates updates []).map (fun c => c.type_)).Nodup) := by
  have hnodup : ∀ (vec : List AppInstanceCondition) (T S R : String) (M : Option String)
      (now : Nat), (vec.map (fun c => c.type_)).Nodup →
      ((update_condition_vec vec T S R M now).map (fun c => c.type_)).Nodup := by
    intro vec T S R M now h
    rw [update_condition_vec_map_types]
    by_cases hmem : T ∈ vec.map (fun c => c.type_)
    · simpa [hmem] using h
    · simp only [hmem, if_false]
      simpa [List.nodup_append, hmem] using h
  refine ⟨update_condition_vec_map_types vec T S R M now, hnodup vec T S R M now, ?_⟩
  have key : ∀ (updates : List (String × String × String × Option String × Nat))
      (vec : List AppInstanceCondition), (vec.map (fun c => c.type_)).Nodup →
      ((apply_condition_updates updates vec).map (fun c => c.type_)).Nodup := by
    intro updates
    induction updates with
    | nil => intro vec h; simpa [apply_condition_updates] using h
    | cons u rest ih =>
      intro vec h
      obtain ⟨t, s, r, m, n⟩ := u
      exact ih _ (hnodup vec t s r m n h)
  intro updates
  exact key updates [] (by simp)

/-- Concrete instance of `c5_update_condition_order`: after updating the
`Ready` condition in a two-type list, the types are still pairwise
distinct. -/
theorem c5_update_condition_order_witness :
    ((update_condition_vec
        [sample_ready_condition,
         { message := "", reason := "B", status := "False", type_ := "Healthy",
           lastTransitionTime := 2, observedGeneration := none }]
        "Ready" "True" "C" none 5).map (fun c => c.type_)).Nodup :=
  (c5_update_condition_order
      [sample_ready_condition,
       { message := "", reason := "B", status := "False", type_ := "Healthy",
         lastTransitionTime := 2, observedGeneration := none }]
      "Ready" "True" "C" none 5).2.1 (by decide)

/-- A status condition of a Kubernetes `batch/v1` Job. -/
structure JobCondition where
  type_ : String
  status : String
deriving Repr, DecidableEq

/-- The `status` of a Job, restricted to the condition list the controller
inspects. -/
structure JobStatus where
  conditions : Option (List JobCondition)
deriving Repr, DecidableEq

/-- The parts of a `batch/v1` Job the controller reads: its metadata labels
and its status. -/
structure KJob where
  labels : List (String × String)
  status : Option JobStatus
deriving Repr, DecidableEq

/-- `job.labels().get(key)`: lookup in the metadata labels map. -/
def get_label (job : KJob) (key : String) : Option String :=
  (job.labels.find? (fun kv => kv.1 == key)).map (fun kv => kv.2)

/-- `kube::runtime::conditions::is_job_completed`, the library predicate the
controller calls at controller.rs:668: true iff the first status condition
of type "Complete" has status "True". -/
def is_job_completed (obj : Option KJob) : Bool :=
  match obj with
  | some job =>
    match job.status with
    | some s =>
      match s.conditions with
      | some conds =>
        match conds.find? (fun c => c.type_ == "Complete") with
        | some pcond => pcond.status == "True"
        | none => false
      | none => false
    | none => false
  | none => false

/-- `is_job_failed` (controller.rs:1280-1293): true iff the first status
condition of type "Failed" has status "True". -/
def is_job_failed (obj : Option KJob) : Bool :=
  match obj with
  | some job =>
    match job.status with
    | some s =>
      match s.conditions with
      | some conds =>
        match conds.find? (fun c => c.type_ == "Failed") with
        | some pcond => pcond.status == "True"
        | none => false
      | none => false
    | none => false
  | none => false

/-- Errors surfaced by the Kubernetes API client (`kube::Error`); `api` is
`kube::Error::Api` carrying its HTTP status code. -/
inductive KubeApiError where
  | api (code : Nat) (message : String)
  | other (description : String)
deriving Repr, DecidableEq

/-- `crate::Error` (lib.rs), restricted to the variants the controller
produces. -/
inductive KError where
  | kubeError (e : KubeApiError)
  | namespaceRequired
  | unsupportedMultipleImagePullSecrets
  | resourceDeletionTimeout
  | invalidConfigMap (msg : String)
  | oci (msg : String)
deriving Repr, DecidableEq

/-- The `thiserror` display strings of `crate::Error` (lib.rs); only the
overall shape matters for the theorems that mention it. -/
def KError.display : KError → String
  | .kubeError e => "Kube Error: " ++ (match e with | .api _ m => m | .other d => d)
  | .namespaceRequired => "Namespace is required"
  | .unsupportedMultipleImagePullSecrets =>
      ".spec.imagePullSecret currently requires to have exactly one pull secret"
  | .resourceDeletionTimeout => "Timed out waiting for resource deletion"
  | .invalidConfigMap m => m
  | .oci m => m

/-- Outcome channel distinguishing typed `crate::Error` values from Rust
panics (`.expect`, map indexing). -/
inductive RunErr where
  | typed (e : KError)
  | panicked (msg : String)
deriving Repr, DecidableEq

/-- `JobOutcome` (controller.rs:295-299). -/
inductive JobOutcome where
  | success
  | failure
deriving Repr, DecidableEq

/-- `ReconciliationState` (controller.rs:288-293). -/
inductive ReconciliationState where
  | idle
  | executing
  | jobTerminated (uid : String) (outcome : JobOutcome)
deriving Repr, DecidableEq

/-- `reconciliation_state` (controller.rs:651-678): classify the apply Job.
The Rust `.expect("Jobs must have controller-uid label")` is modelled as a
`.panicked` outcome. -/
def reconciliation_state (job : Option KJob) : Except RunErr ReconciliationState :=
  match job with
  | some job =>
    match get_label job "controller-uid" with
    | none => .error (.panicked "Jobs must have controller-uid label")
    | some uid =>
      if is_job_completed (some job) then .ok (.jobTerminated uid .success)
      else if is_job_failed (some job) then .ok (.jobTerminated uid .failure)
      else .ok .executing
  | none => .ok .idle

/-- The flattened condition list of a Job (empty when status or conditions
are absent). -/
def job_conditions (job : KJob) : List JobCondition :=
  (job.status.bind (fun s => s.conditions)).getD []

/-- Whether the Job carries SOME condition with the given type and status
(the spec-level predicate of claim C2). -/
def job_has_condition (job : KJob) (t s : String) : Bool :=
  (job_conditions job).any (fun c => c.type_ == t && c.status == s)

/-- The FIRST condition of the given type, which is what the classifiers
actually consult. -/
def first_condition (job : KJob) (t : String) : Option JobCondition :=
  (job_conditions job).find? (fun c => c.type_ == t)

theorem is_job_completed_first (job : KJob) :
    is_job_completed (some job) =
      match first_condition job "Complete" with
      | some c => c.status == "True"
      | none => false := by
  cases job with
  | mk labels status =>
    cases status with
    | none => rfl
    | some s =>
      cases s with
      | mk conds =>
        cases conds with
        | none => rfl
        | some cs => rfl

theorem is_job_failed_first (job : KJob) :
    is_job_failed (some job) =
      match first_condition job "Failed" with
      | some c => c.status == "True"
      | none => false := by
  cases job with
  | mk labels status =>
    cases status with
    | none => rfl
    | some s =>
      cases s with
      | mk conds =>
        cases conds with
        | none => rfl
        | some cs => rfl

theorem find_of_nodup_types {l : List JobCondition} {c : JobCondition} {T : String}
    (hnodup : (l.map (fun c => c.type_)).Nodup) (hmem : c ∈ l) (hT : c.type_ = T) :
    l.find? (fun c => c.type_ == T) = some c := by
  induction l with
  | nil => simp at hmem
  | cons a rest ih =>
    rcases List.mem_cons.mp hmem with h | h
    · subst h
      simp [List.find?, hT]
    · have hnd := List.nodup_cons.mp hnodup
      have ha : a.type_ ≠ T := by
        intro hEq
        have hmemT : a.type_ ∈ rest.map (fun c => c.type_) := by
          rw [hEq, ← hT]
          exact List.mem_map_of_mem _ h
        exact hnd.1 hmemT
      have hb : (a.type_ == T) = false := by simp [ha]
      simp only [List.find?, hb]
      exact ih hnd.2 h

/-- A Job carrying a duplicate "Complete" condition (first False, then
True); allowed by the Kubernetes API, which does not enforce uniqueness of
condition types. -/
def duplicate_complete_job : KJob :=
  { labels := [("controller-uid", "u1")],
    status := some { conditions := some [{ type_ := "Complete", status := "False" },
                                         { type_ := "Complete", status := "True" }] } }

/-- C2 counterexample: `duplicate_complete_job` HAS a condition of type
"Complete" with status "True", yet the classifier returns `Executing`
rather than `JobTerminated("u1", Success)`, because both library and
custom predicates only look at the FIRST condition of each type. -/
theorem c2_reconciliation_state_counterexample :
    job_has_condition duplicate_complete_job "Complete" "True" = true ∧
    reconciliation_state (some duplicate_complete_job) = .ok .executing ∧
    reconciliation_state (some duplicate_complete_job) ≠
      .ok (.jobTerminated "u1" .success) := by
  have hev : reconciliation_state (some duplicate_complete_job) = .ok .executing := rfl
  refine ⟨by decide, hev, ?_⟩
  intro h
  rw [hev] at h
  exact absurd (Except.ok.inj h) (by decide)

/-- C2 (amended): classification is decided by the FIRST condition of each
type: if the first "Complete" condition has status "True" the state is
`JobTerminated(uid, Success)`; otherwise, if the first "Failed" condition
has status "True", it is `JobTerminated(uid, Failure)`; otherwise
`Executing`; absence of the Job gives `Idle`; `uid` is the Job's
controller-uid label.  When the condition types are pairwise distinct
(the common case), "some Complete=True condition exists" coincides with
the first-found rule, recovering the claim as written. -/
theorem c2_reconciliation_state_classifier (job : KJob) (uid : String)
    (huid : get_label job "controller-uid" = some uid) :
    (∀ c, first_condition job "Complete" = some c → c.status = "True" →
      reconciliation_state (some job) = .ok (.jobTerminated uid .success)) ∧
    (∀ c', (is_job_completed (some job) = false) →
      first_condition job "Failed" = some c' → c'.status = "True" →
      reconciliation_state (some job) = .ok (.jobTerminated uid .failure)) ∧
    ((is_job_completed (some job) = false) → (is_job_failed (some job) = false) →
      reconciliation_state (some job) = .ok .executing) ∧
    (reconciliation_state none = .ok .idle) ∧
    (((job_conditions job).map (fun c => c.type_)).Nodup →
      job_has_condition job "Complete" "True" = true →
      reconciliation_state (some job) = .ok (.jobTerminated uid .success)) ∧
    (is_job_completed (some job) = false →
      ((job_conditions job).map (fun c => c.type_)).Nodup →
      job_has_condition job "Failed" "True" = true →
      reconciliation_state (some job) = .ok (.jobTerminated uid .failure)) := by
  have hcomp := is_job_completed_first job
  have hfail := is_job_failed_first job
  have hsucc : ∀ c, first_condition job "Complete" = some c → c.status = "True" →
      reconciliation_state (some job) = .ok (.jobTerminated uid .success) := by
    intro c hfirst hstat
    have hct : is_job_completed (some job) = true := by
      rw [hcomp, hfirst]; simp [hstat]
    simp [reconciliation_state, huid, hct]
  have hfailure : ∀ c', is_job_completed (some job) = false →
      first_condition job "Failed" = some c' → c'.status = "True" →
      reconciliation_state (some job) = .ok (.jobTerminated uid .failure) := by
    intro c' hnc hfirst hstat
    have hft : is_job_failed (some job) = true := by
      rw [hfail, hfirst]; simp [hstat]
    simp [reconciliation_state, huid, hnc, hft]
  refine ⟨hsucc, hfailure, ?_, rfl, ?_, ?_⟩
  · intro hnc hnf
    simp [reconciliation_state, huid, hnc, hnf]
  · intro hnodup hany
    obtain ⟨c, hmem, hc⟩ := List.any_eq_true.mp hany
    have hct : c.type_ = "Complete" := by
      have := (Bool.and_eq_true _ _).mp hc
      exact beq_iff_eq.mp this.1
    have hcs : c.status = "True" := by
      have := (Bool.and_eq_true _ _).mp hc
      exact beq_iff_eq.mp this.2
    exact hsucc c (find_of_nodup_types hnodup hmem hct) hcs
  · intro hnc hnodup hany
    obtain ⟨c, hmem, hc⟩ := List.any_eq_true.mp hany
    have hct : c.type_ = "Failed" := by
      have := (Bool.and_eq_true _ _).mp hc
      exact beq_iff_eq.mp this.1
    have hcs : c.status = "True" := by
      have := (Bool.and_eq_true _ _).mp hc
      exact beq_iff_eq.mp this.2
    exact hfailure c hnc (find_of_nodup_types hnodup hmem hct) hcs

/-- A Job whose single status condition is Complete=True. -/
def completed_job : KJob :=
  { labels := [("controller-uid", "u1")],
    status := some { conditions := some [{ type_ := "Complete", status := "True" }] } }

/-- Concrete instance of `c2_reconciliation_state_classifier`: a Job whose
single condition is Complete=True is classified as a successful
termination carrying its controller-uid. -/
theorem c2_reconciliation_state_classifier_witness :
    reconciliation_state (some completed_job) = .ok (.jobTerminated "u1" .success) :=
  (c2_reconciliation_state_classifier completed_job "u1" (by decide)).1
    { type_ := "Complete", status := "True" } (by decide) rfl

/-- The primitive Kubernetes API interactions performed by the reconcile
functions, recorded in execution order. -/
inductive Effect where
  | updateCondition (type_ status reason : String) (message : Option String)
  | launchJob (jobName : String)
  | captureLogs (jobUid : String)
  | deleteJob (jobName : String)
  | setupRbac
  | createCleanupJob (jobName : String)
  | deleteConfigMap (configMapName : String)
deriving Repr, DecidableEq

/-- `kube::runtime::controller::Action` as the controller uses it: either
wait for the next change event (`Action::await_change()`) or requeue after
the given number of seconds (`Action::requeue(Duration::from_secs(n))`). -/
inductive Action where
  | awaitChange
  | requeueSecs (secs : Nat)
deriving Repr, DecidableEq

/-- The status state threaded through a reconcile run: the stored condition
list, the monotone clock used to stamp conditions, and the trace of API
effects performed so far. -/
structure World where
  conditions : List AppInstanceCondition
  clock : Nat
  trace : List Effect
deriving Repr, DecidableEq

/-- `AppInstanceLike::update_condition` (controller.rs:1110-1130): read the
current status, merge the condition with `update_condition_vec` stamped at
the current clock, and write the status back.  The clock advances so that
later calls use later timestamps; the status write is recorded in the
trace. -/
def update_condition (w : World) (type_ status reason : String) (message : Option String) :
    World :=
  { conditions := update_condition_vec w.conditions type_ status reason message w.clock,
    clock := w.clock + 1,
    trace := w.trace ++ [.updateCondition type_ status reason message] }

/-- `job_name_for` (controller.rs:868-870). -/
def job_name_for (name jobType : String) : String :=
  "kubit-" ++ jobType ++ "-" ++ name

/-- `reconcile_apply` (controller.rs:343-430) as a function of the
classified reconciliation state.  The API interactions are oracles:
`launchResult` is the outcome of `launch_job` (RBAC provisioning, package
resolution and Job creation) and `logSummary` the summary computed by
`capture_logs`; status reads and writes are modelled by the `World` state
and are assumed to succeed. -/
def reconcile_apply (w : World) (name : String) (state : ReconciliationState)
    (launchResult : Except KError Unit) (logSummary : String) :
    Except KError Action × World :=
  match state with
  | .idle =>
    match launchResult with
    | .ok _ =>
      let w1 := { w with trace := w.trace ++ [Effect.launchJob (job_name_for name "apply")] }
      let w2 := update_condition w1 "Reconcilier" "False" "ExpandingTemplate" none
      (.ok .awaitChange, w2)
    | .error err =>
      let w1 := update_condition w "Reconcilier" "False" "Failed" none
      let w2 := update_condition w1 "Ready" "False" "Failed"
        (some ("Cannot launch installation job: " ++ err.display))
      (.error err, w2)
  | .executing => (.ok .awaitChange, w)
  | .jobTerminated uid outcome =>
    let w1 := { w with trace := w.trace ++ [Effect.captureLogs uid] }
    match outcome with
    | .success =>
      let w2 := update_condition w1 "Reconcilier" "True" "Succeeded" none
      let w3 := update_condition w2 "Ready" "True" "JobCompletedSuccessfully" none
      let w4 := { w3 with trace := w3.trace ++ [Effect.deleteJob (job_name_for name "apply")] }
      (.ok .awaitChange, w4)
    | .failure =>
      let w2 := update_condition w1 "Reconcilier" "True" "Failed" none
      let w3 := update_condition w2 "Ready" "False" "JobFailed" (some logSummary)
      let w4 := { w3 with trace := w3.trace ++ [Effect.deleteJob (job_name_for name "apply")] }
      (.ok (.requeueSecs 60), w4)

theorem update_condition_find_self (w : World) (T S R : String) (M : Option String) :
    ∃ c, find_condition (update_condition w T S R M).conditions T = some c ∧
      c.status = S ∧ c.reason = R ∧ c.message = M.getD "" := by
  obtain ⟨t, ht⟩ := update_condition_vec_find_self w.conditions T S R M w.clock
  exact ⟨_, ht, rfl, rfl, rfl⟩

theorem update_condition_find_other (w : World) (T S R : String) (M : Option String)
    (T' : String) (hne : T' ≠ T) :
    find_condition (update_condition w T S R M).conditions T' =
      find_condition w.conditions T' :=
  update_condition_vec_find_other w.conditions T S R M w.clock T' hne

theorem update_condition_pair_find (w : World) (T1 S1 R1 T2 S2 R2 : String)
    (M1 M2 : Option String) (hne : T1 ≠ T2) :
    (∃ c, find_condition
        (update_condition (update_condition w T1 S1 R1 M1) T2 S2 R2 M2).conditions T1 =
        some c ∧ c.status = S1 ∧ c.reason = R1 ∧ c.message = M1.getD "") ∧
    (∃ c, find_condition
        (update_condition (update_condition w T1 S1 R1 M1) T2 S2 R2 M2).conditions T2 =
        some c ∧ c.status = S2 ∧ c.reason = R2 ∧ c.message = M2.getD "") := by
  constructor
  · obtain ⟨c, hc, h⟩ := update_condition_find_self w T1 S1 R1 M1
    exact ⟨c, by rw [update_condition_find_other _ _ _ _ _ _ hne]; exact hc, h⟩
  · exact update_condition_find_self _ T2 S2 R2 M2

/-- C1: on `JobTerminated(uid, outcome)` the reconciler captures the logs
first and then, on `Success`, sets `Reconcilier=True/Succeeded` and
`Ready=True/JobCompletedSuccessfully` and returns wait-for-change; on
`Failure` it sets `Reconcilier=True/Failed` and `Ready=False/JobFailed`
with the log summary as message and returns a 60-second requeue; in both
cases the terminated apply Job is deleted after the condition updates, as
the trace equalities show (the `deleteJob` effect is last). -/
theorem c1_reconcile_apply_job_terminated (w : World) (name uid logSummary : String)
    (launchResult : Except KError Unit) :
    ((reconcile_apply w name (.jobTerminated uid .success) launchResult logSummary).1 =
        .ok .awaitChange ∧
      (reconcile_apply w name (.jobTerminated uid .success) launchResult logSummary).2.trace =
        w.trace ++ [.captureLogs uid,
          .updateCondition "Reconcilier" "True" "Succeeded" none,
          .updateCondition "Ready" "True" "JobCompletedSuccessfully" none,
          .deleteJob (job_name_for name "apply")] ∧
      (∃ c, find_condition
          (reconcile_apply w name (.jobTerminated uid .success) launchResult
            logSummary).2.conditions "Reconcilier" = some c ∧
        c.status = "True" ∧ c.reason = "Succeeded") ∧
      (∃ c, find_condition
          (reconcile_apply w name (.jobTerminated uid .success) launchResult
            logSummary).2.conditions "Ready" = some c ∧
        c.status = "True" ∧ c.reason = "JobCompletedSuccessfully")) ∧
    ((reconcile_apply w name (.jobTerminated uid .failure) launchResult logSummary).1 =
        .ok (.requeueSecs 60) ∧
      (reconcile_apply w name (.jobTerminated uid .failure) launchResult logSummary).2.trace =
        w.trace ++ [.captureLogs uid,
          .updateCondition "Reconcilier" "True" "Failed" none,
          .updateCondition "Ready" "False" "JobFailed" (some logSummary),
          .deleteJob (job_name_for name "apply")] ∧
      (∃ c, find_condition
          (reconcile_apply w name (.jobTerminated uid .failure) launchResult
            logSummary).2.conditions "Reconcilier" = some c ∧
        c.status = "True" ∧ c.reason = "Failed") ∧
      (∃ c, find_condition
          (reconcile_apply w name (.jobTerminated uid .failure) launchResult
            logSummary).2.conditions "Ready" = some c ∧
        c.status = "False" ∧ c.reason = "JobFailed" ∧ c.message = logSummary)) := by
  constructor
  · refine ⟨rfl, ?_, ?_, ?_⟩
    · simp [reconcile_apply, update_condition, List.append_assoc]
    · obtain ⟨c, hc, h1, h2, _⟩ :=
        (update_condition_pair_find
          { w with trace := w.trace ++ [Effect.captureLogs uid] }
          "Reconcilier" "True" "Succeeded" "Ready" "True" "JobCompletedSuccessfully"
          none none (by decide)).1
      exact ⟨c, hc, h1, h2⟩
    · obtain ⟨c, hc, h1, h2, _⟩ :=
        (update_condition_pair_find
          { w with trace := w.trace ++ [Effect.captureLogs uid] }
          "Reconcilier" "True" "Succeeded" "Ready" "True" "JobCompletedSuccessfully"
          none none (by decide)).2
      exact ⟨c, hc, h1, h2⟩
  · refine ⟨rfl, ?_, ?_, ?_⟩
    · simp [reconcile_apply, update_condition, List.append_assoc]
    · obtain ⟨c, hc, h1, h2, _⟩ :=
        (update_condition_pair_find
          { w with trace := w.trace ++ [Effect.captureLogs uid] }
          "Reconcilier" "True" "Failed" "Ready" "False" "JobFailed"
          none (some logSummary) (by decide)).1
      exact ⟨c, hc, h1, h2⟩
    · obtain ⟨c, hc, h1, h2, h3⟩ :=
        (update_condition_pair_find
          { w with trace := w.trace ++ [Effect.captureLogs uid] }
          "Reconcilier" "True" "Failed" "Ready" "False" "JobFailed"
          none (some logSummary) (by decide)).2
      exact ⟨c, hc, h1, h2, h3⟩

/-- C3: in the `Idle` state the reconciler attempts to launch the apply Job
`kubit-apply-<name>`; on success it sets `Reconcilier=False/ExpandingTemplate`
and returns wait-for-change (no requeue); on failure it sets
`Reconcilier=False/Failed` and `Ready=False/Failed` carrying the launch
error's message and returns the error. -/
theorem c3_reconcile_apply_idle (w : World) (name logSummary : String) :
    (job_name_for name "apply" = "kubit-apply-" ++ name) ∧
    ((reconcile_apply w name .idle (.ok ()) logSummary).1 = .ok .awaitChange ∧
      (reconcile_apply w name .idle (.ok ()) logSummary).2.trace =
        w.trace ++ [.launchJob (job_name_for name "apply"),
          .updateCondition "Reconcilier" "False" "ExpandingTemplate" none] ∧
      (∃ c, find_condition
          (reconcile_apply w name .idle (.ok ()) logSummary).2.conditions "Reconcilier" =
          some c ∧ c.status = "False" ∧ c.reason = "ExpandingTemplate")) ∧
    (∀ err : KError,
      (reconcile_apply w name .idle (.error err) logSummary).1 = .error err ∧
      (reconcile_apply w name .idle (.error err) logSummary).2.trace =
        w.trace ++ [.updateCondition "Reconcilier" "False" "Failed" none,
          .updateCondition "Ready" "False" "Failed"
            (some ("Cannot launch installation job: " ++ err.display))] ∧
      (∃ c, find_condition
          (reconcile_apply w name .idle (.error err) logSummary).2.conditions "Reconcilier" =
          some c ∧ c.status = "False" ∧ c.reason = "Failed") ∧
      (∃ c, find_condition
          (reconcile_apply w name .idle (.error err) logSummary).2.conditions "Ready" =
          some c ∧ c.status = "False" ∧ c.reason = "Failed" ∧
          c.message = "Cannot launch installation job: " ++ err.display)) := by
  refine ⟨rfl, ⟨rfl, ?_, ?_⟩, ?_⟩
  · simp [reconcile_apply, update_condition, List.append_assoc]
  · obtain ⟨c, hc, h1, h2, _⟩ :=
      update_condition_find_self
        { w with trace := w.trace ++ [Effect.launchJob (job_name_for name "apply")] }
        "Reconcilier" "False" "ExpandingTemplate" none
    exact ⟨c, hc, h1, h2⟩
  · intro err
    refine ⟨rfl, ?_, ?_, ?_⟩
    · simp [reconcile_apply, update_condition, List.append_assoc]
    · obtain ⟨c, hc, h1, h2, _⟩ :=
        (update_condition_pair_find w "Reconcilier" "False" "Failed" "Ready" "False" "Failed"
          none (some ("Cannot launch installation job: " ++ err.display)) (by decide)).1
      exact ⟨c, hc, h1, h2⟩
    · obtain ⟨c, hc, h1, h2, h3⟩ :=
        (update_condition_pair_find w "Reconcilier" "False" "Failed" "Ready" "False" "Failed"
          none (some ("Cannot launch installation job: " ++ err.display)) (by decide)).2
      exact ⟨c, hc, h1, h2, h3⟩

/-- `LocalObjectReference` as used in `spec.imagePullSecrets`. -/
structure LocalObjectReference where
  name : Option String
deriving Repr, DecidableEq

/-- A pod volume as the controller builds it: either an emptyDir volume
(`secretSource = none`) or a secret-backed volume carrying the referenced
secret's name (projecting `.dockerconfigjson` to `config.json`). -/
structure Volume where
  name : String
  secretSource : Option (Option String)
deriving Repr, DecidableEq

/-- `Itertools::exactly_one`: the single element of a one-element iterator,
an error (here `none`) otherwise. -/
def exactly_one : List α → Option α
  | [x] => some x
  | _ => none

/-- The volume list built by `create_job` (controller.rs:892-925): emptyDir
volumes "overlay" and "manifests", plus — only when `imagePullSecrets` is
configured — exactly one secret-backed "docker" volume; any other number of
configured secrets fails with `UnsupportedMultipleImagePullSecrets`. -/
def apply_job_volumes (imagePullSecrets : Option (List LocalObjectReference)) :
    Except KError (List Volume) :=
  let base : List Volume := [{ name := "overlay", secretSource := none },
                             { name := "manifests", secretSource := none }]
  match imagePullSecrets with
  | none => .ok base
  | some refs =>
    match exactly_one refs with
    | none => .error .unsupportedMultipleImagePullSecrets
    | some secret_ref => .ok (base ++ [{ name := "docker", secretSource := some secret_ref.name }])

/-- The volume list built by `launch_cleanup_job` (controller.rs:535-561):
an emptyDir "manifests" volume plus the same optional "docker" volume. -/
def cleanup_job_volumes (imagePullSecrets : Option (List LocalObjectReference)) :
    Except KError (List Volume) :=
  let base : List Volume := [{ name := "manifests", secretSource := none }]
  match imagePullSecrets with
  | none => .ok base
  | some refs =>
    match exactly_one refs with
    | none => .error .unsupportedMultipleImagePullSecrets
    | some secret_ref => .ok (base ++ [{ name := "docker", secretSource := some secret_ref.name }])

/-- `handle_resource_exists` (controller.rs:1255-1273): a 409 API error on a
create is absorbed as success; every other error propagates wrapped in
`Error::KubeError`. -/
def handle_resource_exists (res : Except KubeApiError Unit) : Except KError Unit :=
  match res with
  | .error (.api code msg) =>
    if code = 409 then .ok () else .error (.kubeError (.api code msg))
  | .error e => .error (.kubeError e)
  | .ok _ => .ok ()

/-- `create_job` (controller.rs:888-1001): build the pod volumes, then POST
the Job (the `.launchJob` effect), absorbing 409 via
`handle_resource_exists`.  When the volume construction fails no create
call is made (empty effect list).  `createResult` is the API outcome of
the POST. -/
def create_job (name : String) (imagePullSecrets : Option (List LocalObjectReference))
    (createResult : Except KubeApiError Unit) :
    Except KError (List Volume) × List Effect :=
  match apply_job_volumes imagePullSecrets with
  | .error e => (.error e, [])
  | .ok volumes =>
    match handle_resource_exists createResult with
    | .error e => (.error e, [.launchJob (job_name_for name "apply")])
    | .ok _ => (.ok volumes, [.launchJob (job_name_for name "apply")])

/-- `launch_cleanup_job` (controller.rs:531-650): build the cleanup pod
volumes, then POST the Job `kubit-cleanup-<name>` (the `.createCleanupJob`
effect), absorbing 409.  When the volume construction fails no create call
is made. -/
def launch_cleanup_job (name : String)
    (imagePullSecrets : Option (List LocalObjectReference))
    (createResult : Except KubeApiError Unit) :
    Except KError (List Volume) × List Effect :=
  match cleanup_job_volumes imagePullSecrets with
  | .error e => (.error e, [])
  | .ok volumes =>
    match handle_resource_exists createResult with
    | .error e => (.error e, [.createCleanupJob ("kubit-cleanup-" ++ name)])
    | .ok _ => (.ok volumes, [.createCleanupJob ("kubit-cleanup-" ++ name)])

/-- `cleanup_hack_resource_name` (delete.rs:198-200). -/
def cleanup_hack_resource_name (name : String) : String :=
  name ++ "-cleanup"

/-- `delete_cleanup_hack_configmap` (controller.rs:486-505): delete the
applyset hack ConfigMap; a 404 is absorbed as success; every other API
error propagates wrapped in `Error::KubeError`.  `deleteResult` is the API
outcome of the delete call. -/
def delete_cleanup_hack_configmap (name : String)
    (deleteResult : Except KubeApiError Unit) : Except KError Action × List Effect :=
  let eff := [Effect.deleteConfigMap (cleanup_hack_resource_name name)]
  match deleteResult with
  | .ok _ => (.ok .awaitChange, eff)
  | .error (.api code msg) =>
    if code = 404 then (.ok .awaitChange, eff)
    else (.error (.kubeError (.api code msg)), eff)
  | .error (.other d) => (.error (.kubeError (.other d)), eff)

/-- `create_cleanup` (controller.rs:507-529): provision namespaced RBAC,
launch the cleanup Job, then await its completion bounded by the 120 s
timeout (`cleanupCompleted` is the oracle for whether the wait finished in
time); on timeout the cycle fails with `ResourceDeletionTimeout`. -/
def create_cleanup (name : String)
    (imagePullSecrets : Option (List LocalObjectReference))
    (cleanupCreateResult : Except KubeApiError Unit) (cleanupCompleted : Bool) :
    Except KError Action × List Effect :=
  let (res, eff) := launch_cleanup_job name imagePullSecrets cleanupCreateResult
  let eff := Effect.setupRbac :: eff
  match res with
  | .error e => (.error e, eff)
  | .ok _ =>
    if cleanupCompleted then (.ok .awaitChange, eff)
    else (.error .resourceDeletionTimeout, eff)

/-- `reconcile_delete` (controller.rs:432-471), with oracles for the API
interactions: whether the apply Job still exists, whether its deletion is
confirmed within the 120 s timeout, whether a cleanup Job already exists,
the API outcome of creating the cleanup Job, whether the cleanup Job
completes within its timeout, and the API outcome of deleting the hack
ConfigMap.  The delete call on the apply Job is assumed to succeed (an API
error there would simply propagate earlier). -/
def reconcile_delete (name : String)
    (imagePullSecrets : Option (List LocalObjectReference))
    (applyJobExists applyDeleteConfirmed cleanupJobExists : Bool)
    (cleanupCreateResult : Except KubeApiError Unit) (cleanupCompleted : Bool)
    (cmDeleteResult : Except KubeApiError Unit) :
    Except KError Action × List Effect :=
  if applyJobExists then
    let eff := [Effect.deleteJob (job_name_for name "apply")]
    if applyDeleteConfirmed then
      let (res, eff2) := create_cleanup name imagePullSecrets cleanupCreateResult cleanupCompleted
      match res with
      | .error e => (.error e, eff ++ eff2)
      | .ok _ =>
        let (res3, eff3) := delete_cleanup_hack_configmap name cmDeleteResult
        (res3, eff ++ eff2 ++ eff3)
    else
      (.error .resourceDeletionTimeout, eff)
  else if cleanupJobExists then
    let (res, eff2) := create_cleanup name imagePullSecrets cleanupCreateResult cleanupCompleted
    match res with
    | .error e => (.error e, eff2)
    | .ok _ =>
      let (res3, eff3) := delete_cleanup_hack_configmap name cmDeleteResult
      (res3, eff2 ++ eff3)
  else
    delete_cleanup_hack_configmap name cmDeleteResult

/-- kube-runtime's `finalizer` helper (used at controller.rs:153-197)
removes the finalizer only when the cleanup closure returns `Ok`
(library dependency, modelled by its documented semantics). -/
def finalizer_released (res : Except KError Action) : Bool :=
  match res with
  | .ok _ => true
  | .error _ => false

theorem exactly_one_eq_none {α : Type} (l : List α) (h : l.length ≠ 1) :
    exactly_one l = none := by
  match l with
  | [] => rfl
  | [x] => exact absurd rfl h
  | x :: y :: rest => rfl

/-- C7 counterexample: with `imagePullSecrets` present but holding ZERO
secrets, the claim's "zero configured pull secrets produce a pod spec
without the docker volume" fails: both Job constructions abort with the
multiple-pull-secrets error (and make no create call). -/
theorem c7_pull_secret_counterexample :
    (some ([] : List LocalObjectReference)).getD [] = [] ∧
    apply_job_volumes (some []) = .error .unsupportedMultipleImagePullSecrets ∧
    cleanup_job_volumes (some []) = .error .unsupportedMultipleImagePullSecrets ∧
    create_job "demo" (some []) (.ok ()) =
      (.error .unsupportedMultipleImagePullSecrets, []) ∧
    launch_cleanup_job "demo" (some []) (.ok ()) =
      (.error .unsupportedMultipleImagePullSecrets, []) :=
  ⟨rfl, rfl, rfl, rfl, rfl⟩

/-- C7 (amended): with `imagePullSecrets` ABSENT the apply and cleanup pod
specs contain no "docker" volume; with exactly one configured secret both
contain the secret-backed "docker" volume; with any other configured list
(empty, or two and more) the construction fails with
`UnsupportedMultipleImagePullSecrets` and no create call is made. -/
theorem c7_pull_secret_volumes (name : String) (r : LocalObjectReference)
    (refs : List LocalObjectReference) (createResult : Except KubeApiError Unit)
    (hlen : refs.length ≠ 1) :
    (apply_job_volumes none =
        .ok [{ name := "overlay", secretSource := none },
             { name := "manifests", secretSource := none }] ∧
      cleanup_job_volumes none = .ok [{ name := "manifests", secretSource := none }]) ∧
    (apply_job_volumes (some [r]) =
        .ok [{ name := "overlay", secretSource := none },
             { name := "manifests", secretSource := none },
             { name := "docker", secretSource := some r.name }] ∧
      cleanup_job_volumes (some [r]) =
        .ok [{ name := "manifests", secretSource := none },
             { name := "docker", secretSource := some r.name }]) ∧
    (apply_job_volumes (some refs) = .error .unsupportedMultipleImagePullSecrets ∧
      cleanup_job_volumes (some refs) = .error .unsupportedMultipleImagePullSecrets ∧
      create_job name (some refs) createResult =
        (.error .unsupportedMultipleImagePullSecrets, []) ∧
      launch_cleanup_job name (some refs) createResult =
        (.error .unsupportedMultipleImagePullSecrets, [])) := by
  have he : exactly_one refs = none := exactly_one_eq_none refs hlen
  have ha : apply_job_volumes (some refs) = .error .unsupportedMultipleImagePullSecrets := by
    simp [apply_job_volumes, he]
  have hc : cleanup_job_volumes (some refs) = .error .unsupportedMultipleImagePullSecrets := by
    simp [cleanup_job_volumes, he]
  refine ⟨⟨rfl, rfl⟩, ⟨rfl, rfl⟩, ha, hc, ?_, ?_⟩
  · simp [create_job, ha]
  · simp [launch_cleanup_job, hc]

/-- Concrete instance of `c7_pull_secret_volumes`: two configured pull
secrets make the apply-Job construction fail. -/
theorem c7_pull_secret_volumes_witness :
    apply_job_volumes (some [{ name := some "s1" }, { name := some "s2" }]) =
      .error .unsupportedMultipleImagePullSecrets :=
  ((c7_pull_secret_volumes "demo" { name := some "s1" }
      [{ name := some "s1" }, { name := some "s2" }] (.ok ()) (by decide)).2.2).1

/-- C9: a 409 on creating the apply or cleanup Job is absorbed as success
by `handle_resource_exists`, and a 404 on deleting the cleanup-hack
ConfigMap is absorbed as success; every other API error from these
operations propagates wrapped in `Error::KubeError`; nothing else is
swallowed (the success cases are exactly `Ok` and the enumerated codes). -/
theorem c9_error_absorption :
    (∀ res : Except KubeApiError Unit,
      handle_resource_exists res = .ok () ↔
        (res = .ok () ∨ ∃ msg, res = .error (.api 409 msg))) ∧
    (∀ code msg, code ≠ 409 →
      handle_resource_exists (.error (.api code msg)) =
        .error (.kubeError (.api code msg))) ∧
    (∀ d, handle_resource_exists (.error (.other d)) = .error (.kubeError (.other d))) ∧
    (∀ (name : String) (res : Except KubeApiError Unit),
      (delete_cleanup_hack_configmap name res).1 = .ok .awaitChange ↔
        (res = .ok () ∨ ∃ msg, res = .error (.api 404 msg))) ∧
    (∀ (name : String) (code : Nat) (msg : String), code ≠ 404 →
      (delete_cleanup_hack_configmap name (.error (.api code msg))).1 =
        .error (.kubeError (.api code msg))) ∧
    (∀ (name d : String), (delete_cleanup_hack_configmap name (.error (.other d))).1 =
      .error (.kubeError (.other d))) := by
  refine ⟨?_, ?_, ?_, ?_, ?_, ?_⟩
  · intro res
    match res with
    | .ok () => simp [handle_resource_exists]
    | .error (.api code msg) =>
      by_cases hcode : code = 409
      · subst hcode
        simp [handle_resource_exists]
      · simp [handle_resource_exists, hcode]
    | .error (.other d) => simp [handle_resource_exists]
  · intro code msg hcode
    simp [handle_resource_exists, hcode]
  · intro d
    simp [handle_resource_exists]
  · intro name res
    match res with
    | .ok () => simp [delete_cleanup_hack_configmap]
    | .error (.api code msg) =>
      by_cases hcode : code = 404
      · subst hcode
        simp [delete_cleanup_hack_configmap]
      · simp [delete_cleanup_hack_configmap, hcode]
    | .error (.other d) => simp [delete_cleanup_hack_configmap]
  · intro name code msg hcode
    simp [delete_cleanup_hack_configmap, hcode]
  · intro name d
    simp [delete_cleanup_hack_configmap]

/-- Concrete instance of `c9_error_absorption`: a 500 on Job creation is
propagated, not absorbed. -/
theorem c9_error_absorption_witness :
    handle_resource_exists (.error (.api 500 "boom")) =
      .error (.kubeError (.api 500 "boom")) :=
  c9_error_absorption.2.1 500 "boom" (by decide)

/-- C6: when the apply Job exists and its removal is not confirmed within
the 120 s timeout, `reconcile_delete` returns the retryable
`ResourceDeletionTimeout` error after only the Job delete call, the
finalizer is not released, and no cleanup Job create call happens;
moreover, across all oracle outcomes, a cleanup Job is only ever created
when the apply Job was absent or its deletion was confirmed. -/
theorem c6_reconcile_delete_timeout (name : String)
    (imagePullSecrets : Option (List LocalObjectReference))
    (cleanupJobExists : Bool) (cleanupCreateResult : Except KubeApiError Unit)
    (cleanupCompleted : Bool) (cmDeleteResult : Except KubeApiError Unit) :
    (reconcile_delete name imagePullSecrets true false cleanupJobExists
        cleanupCreateResult cleanupCompleted cmDeleteResult =
      (.error .resourceDeletionTimeout, [.deleteJob (job_name_for name "apply")])) ∧
    (finalizer_released (reconcile_delete name imagePullSecrets true false cleanupJobExists
        cleanupCreateResult cleanupCompleted cmDeleteResult).1 = false) ∧
    (∀ jobName, Effect.createCleanupJob jobName ∉
      (reconcile_delete name imagePullSecrets true false cleanupJobExists
        cleanupCreateResult cleanupCompleted cmDeleteResult).2) ∧
    (∀ (aje adc cje : Bool) (ccr : Except KubeApiError Unit) (cc : Bool)
        (cdr : Except KubeApiError Unit) (jobName : String),
      Effect.createCleanupJob jobName ∈
        (reconcile_delete name imagePullSecrets aje adc cje ccr cc cdr).2 →
      (aje = false ∨ adc = true)) := by
  refine ⟨rfl, rfl, ?_, ?_⟩
  · intro jobName
    simp [reconcile_delete]
  · intro aje adc cje ccr cc cdr jobName hmem
    cases aje with
    | false => exact Or.inl rfl
    | true =>
      cases adc with
      | true => exact Or.inr rfl
      | false =>
        simp [reconcile_delete] at hmem

/-- Concrete instance of `c6_reconcile_delete_timeout`: the timed-out
deletion cycle for AppInstance "demo". -/
theorem c6_reconcile_delete_timeout_witness :
    reconcile_delete "demo" none true false false (.ok ()) true (.ok ()) =
      (.error .resourceDeletionTimeout, [.deleteJob "kubit-apply-demo"]) :=
  (c6_reconcile_delete_timeout "demo" none false (.ok ()) true (.ok ())).1

/-- The slice of a container's `state` the controller reads: whether a
`waiting` state is present, and `terminated.exit_code` when a terminated
state is present. -/
structure ContainerState where
  waiting : Bool
  terminated : Option Int
deriving Repr, DecidableEq

/-- A pod container status: container name and optional state. -/
structure ContainerStatus where
  name : String
  state : Option ContainerState
deriving Repr, DecidableEq

/-- A pod's status: init and main container status lists. -/
structure PodStatus where
  initContainerStatuses : Option (List ContainerStatus)
  containerStatuses : Option (List ContainerStatus)
deriving Repr, DecidableEq

/-- A pod as `capture_logs` reads it: its name and optional status (the
Rust `pod.status.as_ref().unwrap()` panics when the status is absent). -/
structure PodLike where
  name : String
  status : Option PodStatus
deriving Repr, DecidableEq

/-- Split a character list at newline characters, keeping empty segments. -/
def split_newline : List Char → List (List Char)
  | [] => [[]]
  | c :: rest =>
    if c = '\n' then [] :: split_newline rest
    else
      match split_newline rest with
      | [] => [[c]]
      | seg :: segs => (c :: seg) :: segs

/-- Drop one trailing carriage return (the \r of a \r\n line ending). -/
def strip_cr (l : List Char) : List Char :=
  match l.getLast? with
  | some c => if c = '\r' then l.dropLast else l
  | none => l

/-- Rust's `str::lines`: lines are split at `\n` or `\r\n`, and a final
line terminator yields no trailing empty line. -/
def rust_lines (s : String) : List String :=
  let parts := split_newline s.data
  let body := (parts.dropLast.map strip_cr).map (fun l => String.mk l)
  match parts.getLast? with
  | some [] => body
  | some lst => body ++ [String.mk lst]
  | none => body

/-- `logs.lines().next()` (controller.rs:1078): the first line, or nothing
appended when there is none. -/
def first_line (s : String) : String :=
  ((rust_lines s).head?).getD ""

/-- `logs.lines().last()` (controller.rs:1082): the last line, or nothing
appended when there is none. -/
def last_line (s : String) : String :=
  ((rust_lines s).getLast?).getD ""

/-- controller.rs:1045-1049: a container is waiting when its state is
explicitly waiting or when the state field is empty. -/
def container_is_waiting (st : ContainerStatus) : Bool :=
  match st.state with
  | some s => s.waiting
  | none => true

/-- controller.rs:1055-1060: a container has failed when its terminated
state reports a positive exit code. -/
def container_has_failed (st : ContainerStatus) : Bool :=
  match st.state with
  | some s =>
    match s.terminated with
    | some exitCode => decide (exitCode > 0)
    | none => false
  | none => false

/-- controller.rs:1032-1038: init container statuses followed by main
container statuses, absent lists skipped. -/
def pod_container_statuses (ps : PodStatus) : List ContainerStatus :=
  ps.initContainerStatuses.getD [] ++ ps.containerStatuses.getD []

/-- The names pushed into `container_names` (controller.rs:1051-1053):
containers that are not waiting, in order. -/
def collect_container_names : List ContainerStatus → List String
  | [] => []
  | st :: rest =>
    (if container_is_waiting st then [] else [st.name]) ++ collect_container_names rest

/-- The final value of `failed_container_name` (controller.rs:1061-1063):
each failed container overwrites the previous value, so the LAST failed
container wins. -/
def last_failed_container : List ContainerStatus → Option String
  | [] => none
  | st :: rest =>
    match last_failed_container rest with
    | some n => some n
    | none => if container_has_failed st then some st.name else none

/-- controller.rs:1066-1085: walk `container_names` in order; for the
container matching `failed_container_name`, append first log line,
`"\n...\n"`, and last log line to the summary. -/
def pod_log_summary (logs : String → String) (failed : Option String) :
    List String → String
  | [] => ""
  | n :: rest =>
    (if some n = failed then first_line (logs n) ++ "\n...\n" ++ last_line (logs n) else "")
      ++ pod_log_summary logs failed rest

/-- controller.rs:1087-1090: the `per_container_logs` map entry update —
concatenate when the container name is already present (several pods
matching the same Job), insert otherwise. -/
def insert_container_log (m : List (String × String)) (name log : String) :
    List (String × String) :=
  match m.find? (fun kv => kv.1 == name) with
  | some _ => m.map (fun kv => if kv.1 == name then (kv.1, kv.2 ++ log) else kv)
  | none => m ++ [(name, log)]

/-- The per-pod step of `capture_logs` (controller.rs:1027-1095): compute
the started container names and the failed container, extend the summary
and the per-container log map. -/
def capture_logs_pod (logs : String → String) (ps : PodStatus)
    (summary : String) (m : List (String × String)) :
    String × List (String × String) :=
  let sts := pod_container_statuses ps
  let names := collect_container_names sts
  let failed := last_failed_container sts
  (summary ++ pod_log_summary logs failed names,
   names.foldl (fun m n => insert_container_log m n (logs n)) m)

def capture_logs_go (logs : String → String → String) :
    List PodLike → String → List (String × String) →
      Except RunErr (String × List (String × String))
  | [], summary, m => .ok (summary, m)
  | pod :: rest, summary, m =>
    match pod.status with
    | none => .error (.panicked "called Option::unwrap on a None value")
    | some ps =>
      let next := capture_logs_pod (logs pod.name) ps summary m
      capture_logs_go logs rest next.1 next.2

/-- `capture_logs` (controller.rs:1003-1108) restricted to its outputs: the
failure summary it returns and the per-container log map it persists to
`status.lastLogs`.  `logs pod container` is the log-fetch oracle (assumed
to succeed); `pod.status.as_ref().unwrap()` is modelled as a panic. -/
def capture_logs (logs : String → String → String) (pods : List PodLike) :
    Except RunErr (String × List (String × String)) :=
  capture_logs_go logs pods "" []

/-- The summary component of a `capture_logs` outcome. -/
def captured_summary (r : Except RunErr (String × List (String × String))) :
    Option String :=
  match r with
  | .ok (summary, _) => some summary
  | .error _ => none

theorem str_append_nil (s : String) : s ++ "" = s := by
  cases s with
  | mk data =>
    show String.mk (data ++ []) = String.mk data
    rw [List.append_nil]

theorem str_nil_append (s : String) : "" ++ s = s := rfl

theorem last_failed_container_of_filter_nil (sts : List ContainerStatus)
    (h : sts.filter container_has_failed = []) :
    last_failed_container sts = none := by
  induction sts with
  | nil => rfl
  | cons st rest ih =>
    rw [List.filter_cons] at h
    by_cases hf : container_has_failed st = true
    · simp [hf] at h
    · have hb : container_has_failed st = false := by
        cases hcf : container_has_failed st
        · rfl
        · exact absurd hcf hf
      simp only [hb, Bool.false_eq_true, if_false] at h
      simp [last_failed_container, ih h, hb]

theorem last_failed_container_of_filter_singleton (sts : List ContainerStatus)
    (f : ContainerStatus) (h : sts.filter container_has_failed = [f]) :
    last_failed_container sts = some f.name := by
  induction sts with
  | nil => simp at h
  | cons st rest ih =>
    rw [List.filter_cons] at h
    by_cases hf : container_has_failed st = true
    · simp only [hf, if_true] at h
      have hst : st = f := (List.cons_eq_cons.mp h).1
      have hrest : rest.filter container_has_failed = [] := (List.cons_eq_cons.mp h).2
      subst hst
      simp [last_failed_container, last_failed_container_of_filter_nil rest hrest, hf]
    · have hb : container_has_failed st = false := by
        cases hcf : container_has_failed st
        · rfl
        · exact absurd hcf hf
      simp only [hb, Bool.false_eq_true, if_false] at h
      simp [last_failed_container, ih h]

theorem collect_container_names_sublist (sts : List ContainerStatus) :
    List.Sublist (collect_container_names sts) (sts.map (fun st => st.name)) := by
  induction sts with
  | nil => simp [collect_container_names]
  | cons st rest ih =>
    by_cases hw : container_is_waiting st = true
    · simp only [collect_container_names, hw, if_true, List.nil_append, List.map_cons]
      exact ih.cons _
    · have hb : container_is_waiting st = false := by
        cases hcw : container_is_waiting st
        · rfl
        · exact absurd hcw hw
      simp only [collect_container_names, hb, Bool.false_eq_true, if_false,
        List.singleton_append, List.map_cons]
      exact ih.cons₂ _

theorem mem_collect_container_names (sts : List ContainerStatus)
    (f : ContainerStatus) (hmem : f ∈ sts) (hw : container_is_waiting f = false) :
    f.name ∈ collect_container_names sts := by
  induction sts with
  | nil => simp at hmem
  | cons st rest ih =>
    rcases List.mem_cons.mp hmem with h | h
    · subst h
      simp [collect_container_names, hw]
    · by_cases hws : container_is_waiting st = true <;>
        simp [collect_container_names, hws, ih h]

theorem pod_log_summary_not_mem (logs : String → String) (fn : String)
    (names : List String) (h : fn ∉ names) :
    pod_log_summary logs (some fn) names = "" := by
  induction names with
  | nil => rfl
  | cons n rest ih =>
    have hn : n ≠ fn := fun hEq => h (hEq ▸ List.mem_cons_self n rest)
    have hrest : fn ∉ rest := fun hEq => h (List.mem_cons_of_mem n hEq)
    simp only [pod_log_summary]
    rw [if_neg (by simp [hn]), ih hrest, str_nil_append]

theorem pod_log_summary_count_one (logs : String → String) (fn : String)
    (names : List String) (h : names.count fn = 1) :
    pod_log_summary logs (some fn) names =
      first_line (logs fn) ++ "\n...\n" ++ last_line (logs fn) := by
  induction names with
  | nil => simp at h
  | cons n rest ih =>
    by_cases hn : n = fn
    · subst hn
      rw [List.count_cons_self] at h
      have hrest : rest.count n = 0 := by omega
      have hnotmem : n ∉ rest := by
        intro hmem
        rw [List.count_eq_zero] at hrest
        exact hrest hmem
      simp only [pod_log_summary]
      rw [if_pos trivial, pod_log_summary_not_mem logs n rest hnotmem, str_append_nil]
    · rw [List.count_cons_of_ne (fun hEq => hn hEq.symm)] at h
      simp only [pod_log_summary]
      rw [if_neg (by simp [hn]), ih h, str_nil_append]

/-- C8: for a pod of the terminated Job with exactly one failed container
(terminated with a positive exit code, started, container names pairwise
distinct), the captured failure summary equals the first line of that
container's log, followed by `"\n...\n"`, followed by the last line of
that log — whatever the log's length. -/
theorem c8_capture_logs_summary (logs : String → String → String) (pod : PodLike)
    (ps : PodStatus) (f : ContainerStatus)
    (hstatus : pod.status = some ps)
    (hfail : (pod_container_statuses ps).filter container_has_failed = [f])
    (hwait : container_is_waiting f = false)
    (hnodup : ((pod_container_statuses ps).map (fun st => st.name)).Nodup) :
    captured_summary (capture_logs logs [pod]) =
      some (first_line (logs pod.name f.name) ++ "\n...\n" ++
        last_line (logs pod.name f.name)) := by
  have hmemf : f ∈ pod_container_statuses ps := by
    have : f ∈ (pod_container_statuses ps).filter container_has_failed := by
      rw [hfail]; exact List.mem_singleton_self f
    exact List.mem_of_mem_filter this
  have hmemn : f.name ∈ collect_container_names (pod_container_statuses ps) :=
    mem_collect_container_names _ f hmemf hwait
  have hnodupc : (collect_container_names (pod_container_statuses ps)).Nodup :=
    (collect_container_names_sublist (pod_container_statuses ps)).nodup hnodup
  have hcount : (collect_container_names (pod_container_statuses ps)).count f.name = 1 :=
    List.count_eq_one_of_mem hnodupc hmemn
  have hlast : last_failed_container (pod_container_statuses ps) = some f.name :=
    last_failed_container_of_filter_singleton _ f hfail
  show captured_summary (capture_logs_go logs [pod] "" []) = _
  simp only [capture_logs_go, hstatus, capture_logs_pod]
  rw [hlast, pod_log_summary_count_one (logs pod.name) f.name _ hcount, str_nil_append]
  rfl

/-- Concrete instance of `c8_capture_logs_summary`, the spec's scenario:
one failed container with log `"line1\nline2\nline3\n"` gives summary
`"line1\n...\nline3"`. -/
theorem c8_capture_logs_summary_witness :
    captured_summary (capture_logs (fun _ _ => "line1\nline2\nline3\n")
      [{ name := "pod1",
         status := some
           { initContainerStatuses := none,
             containerStatuses := some
               [{ name := "apply",
                  state := some { waiting := false, terminated := some 1 } }] } }]) =
      some "line1\n...\nline3" := by
  have h := c8_capture_logs_summary (fun _ _ => "line1\nline2\nline3\n")
    { name := "pod1",
      status := some
        { initContainerStatuses := none,
          containerStatuses := some
            [{ name := "apply",
               state := some { waiting := false, terminated := some 1 } }] }
    }
    { initContainerStatuses := none,
      containerStatuses := some
        [{ name := "apply", state := some { waiting := false, terminated := some 1 } }] }
    { name := "apply", state := some { waiting := false, terminated := some 1 } }
    rfl (by decide) (by decide) (by decide)
  rw [h]
  rfl

/-- A ConfigMap as `from_config_map` reads it: its uid and optional `data`
map. -/
structure ConfigMapL where
  uid : Option String
  data : Option (List (String × String))
deriving Repr, DecidableEq

/-- The parsed AppInstance payload, restricted to the field
`from_config_map` modifies (the uid copied from the ConfigMap). -/
structure AppInstanceL where
  uid : Option String
deriving Repr, DecidableEq

/-- Whether an execution outcome is a Rust panic (as opposed to a typed
`crate::Error`). -/
def RunErr.isPanic : RunErr → Bool
  | .panicked _ => true
  | .typed _ => false

/-- Whether a computation ended in a panic. -/
def result_panics {α : Type} (r : Except RunErr α) : Bool :=
  match r with
  | .error e => e.isPanic
  | .ok _ => false

/-- `from_config_map` (controller.rs:325-341).  `parse` stands for
`serde_yaml::from_str::<AppInstance>`.  The Rust code handles a missing
`data` field with a typed `InvalidConfigMap` error, but then indexes
`config[key]`, which panics when the key is absent (the `BTreeMap` `Index`
implementation, message "no entry found for key"). -/
def from_config_map (cm : ConfigMapL) (key : String)
    (parse : String → Except String AppInstanceL) : Except RunErr AppInstanceL :=
  match cm.data with
  | some config =>
    match (config.find? (fun kv => kv.1 == key)).map (fun kv => kv.2) with
    | none => .error (.panicked "no entry found for key")
    | some cfg =>
      match parse cfg with
      | .error e => .error (.typed (.invalidConfigMap e))
      | .ok ai => .ok { ai with uid := cm.uid }
  | none =>
    .error (.typed (.invalidConfigMap
      "configmap did not have the `data` property set"))

/-- C10 counterexample: classifying an existing Job that lacks the
controller-uid label, and building the AppInstance from a ConfigMap whose
`data` exists but has no "app-instance" key, both PANIC (`.expect` and map
indexing) instead of surfacing a typed error. -/
theorem c10_panic_counterexample :
    result_panics (reconciliation_state
      (some { labels := [], status := none })) = true ∧
    reconciliation_state (some { labels := [], status := none }) =
      .error (.panicked "Jobs must have controller-uid label") ∧
    result_panics (from_config_map
      { uid := none, data := some [("other-key", "x")] } "app-instance"
      (fun _ => .ok { uid := none })) = true ∧
    from_config_map { uid := none, data := some [("other-key", "x")] } "app-instance"
      (fun _ => .ok { uid := none }) =
      .error (.panicked "no entry found for key") :=
  ⟨rfl, rfl, rfl, rfl⟩

/-- C10 (amended): `from_config_map` surfaces typed errors for an absent
`data` map and for a payload that fails to parse, but PANICS when `data`
exists without the requested key; and `reconciliation_state` PANICS on a
Job without the controller-uid label.  (The claim's "never panics" fails
on exactly these two inputs.) -/
theorem c10_error_paths (job : KJob) (cm : ConfigMapL) (key : String)
    (parse : String → Except String AppInstanceL) :
    (get_label job "controller-uid" = none →
      reconciliation_state (some job) =
        .error (.panicked "Jobs must have controller-uid label")) ∧
    (∀ config, cm.data = some config →
      config.find? (fun kv => kv.1 == key) = none →
      from_config_map cm key parse = .error (.panicked "no entry found for key")) ∧
    (cm.data = none →
      from_config_map cm key parse =
        .error (.typed (.invalidConfigMap
          "configmap did not have the `data` property set"))) ∧
    (∀ config kv e, cm.data = some config →
      config.find? (fun kv => kv.1 == key) = some kv → parse kv.2 = .error e →
      from_config_map cm key parse = .error (.typed (.invalidConfigMap e))) ∧
    (∀ config kv ai, cm.data = some config →
      config.find? (fun kv => kv.1 == key) = some kv → parse kv.2 = .ok ai →
      from_config_map cm key parse = .ok { ai with uid := cm.uid }) := by
  refine ⟨?_, ?_, ?_, ?_, ?_⟩
  · intro h
    simp [reconciliation_state, h]
  · intro config hdata hfind
    simp [from_config_map, hdata, hfind]
  · intro hdata
    simp [from_config_map, hdata]
  · intro config kv e hdata hfind hparse
    simp [from_config_map, hdata, hfind, hparse]
  · intro config kv ai hdata hfind hparse
    simp [from_config_map, hdata, hfind, hparse]

/-- Concrete instance of `c10_error_paths`: a ConfigMap without `data`
yields the typed `InvalidConfigMap` error. -/
theorem c10_error_paths_witness :
    from_config_map { uid := none, data := none } "app-instance"
      (fun _ => .ok { uid := none }) =
      .error (.typed (.invalidConfigMap
        "configmap did not have the `data` property set")) :=
  (c10_error_paths { labels := [], status := none }
      { uid := none, data := none } "app-instance"
      (fun _ => .ok { uid := none })).2.2.1 rfl

end Kubit
